import Mathlib

/-!
Verification development for the SyncWatch room-synchronization server.

The definitions below are a shallow embedding of the socket.io server
(the file with the session tracker and the SQLite history sink).  Each
socket handler becomes a pure function from the room registry and the
event payload to the updated registry together with the list of emitted
events; `Date.now()` and `new Date().toISOString()` become explicit
parameters.  Timestamps are `Int` milliseconds; the video position is
carried as an uninterpreted `Int` since the server never computes with it.
-/

namespace SyncWatch

/-- `room.videoState` in the server: url (null until a video is attached),
current position, playing flag. -/
structure VideoState where
  url : Option String
  currentTime : Int
  isPlaying : Bool
deriving Repr, DecidableEq

/-- `room.session.state`: the watch-session state machine. -/
inductive SessionState
  | IDLE
  | PLAYING
  | PAUSED
  | ENDED
deriving Repr, DecidableEq

/-- `room.session`: watch-time accounting. `startedAt` and `lastPlayAt`
are null until the first play, hence `Option`. -/
structure Session where
  state : SessionState
  startedAt : Option Int
  lastPlayAt : Option Int
  totalPlayTime : Int
deriving Repr, DecidableEq

/-- One entry of the `rooms` map. -/
structure Room where
  hostId : String
  members : List String
  videoState : VideoState
  movieName : Option String
  session : Session
  createdAt : Int
deriving Repr, DecidableEq

/-- The `rooms` map, as an insertion-ordered association list, matching
the iteration order of a JS `Map`. -/
def Rooms := List (String × Room)
deriving Repr, DecidableEq

/-- `rooms.get(id)`: first binding with the given key. -/
def roomsGet : Rooms → String → Option Room
  | [], _ => none
  | (k, v) :: rest, rid => if k = rid then some v else roomsGet rest rid

/-- `rooms.set(id, room)`: replace the existing binding in place, else
append, as a JS `Map` does. -/
def roomsSet : Rooms → String → Room → Rooms
  | [], rid, r => [(rid, r)]
  | (k, v) :: rest, rid, r =>
      if k = rid then (rid, r) :: rest else (k, v) :: roomsSet rest rid r

/-- Destination of an emitted event: `socket.emit` (the sender only),
`socket.to(roomId).emit` (every member of the room except the sender),
`io.to(roomId).emit` (every member of the room, sender included). -/
inductive Dest
  | sender
  | roomOthers (roomId : String)
  | roomAll (roomId : String)
deriving Repr, DecidableEq

/-- The outbound socket events the server emits. -/
inductive Event
  | errorMsg (text : String)
  | roomCreated (roomId : String) (role : String)
  | roomJoined (roomId : String) (role : String) (videoState : VideoState)
  | userJoined (userId : String)
  | userLeft (userId : String)
  | playEv (currentTime : Int)
  | pauseEv (currentTime : Int)
  | seekEv (currentTime : Int)
  | changeVideoEv (url : String)
  | chatMessageEv (message : String) (role : String) (time : String)
  | roomClosed (message : String)
deriving Repr, DecidableEq

/-- One emission: a destination and the event sent there. -/
def Emission := Dest × Event
deriving Repr, DecidableEq

/-- A row inserted into the `history` table on host disconnect. -/
structure HistoryRecord where
  roomId : String
  movieName : String
  duration : Int
  genre : String
  watchedAt : String
deriving Repr, DecidableEq

/-- `Math.round(t / 1000)` for an integer millisecond count `t`:
JS rounds half toward positive infinity, so this is
`floor(t / 1000 + 1 / 2)`. -/
def jsRoundDiv1000 (t : Int) : Int := Int.fdiv (t + 500) 1000

/-- The fresh room stored by the `create-room` handler. -/
def freshRoom (socketId : String) (now : Int) : Room :=
  { hostId := socketId
    members := [socketId]
    videoState := { url := none, currentTime := 0, isPlaying := false }
    movieName := none
    session :=
      { state := SessionState.IDLE
        startedAt := none
        lastPlayAt := none
        totalPlayTime := 0 }
    createdAt := now }

/-- The `create-room` handler.  `roomId` is the value returned by
`generateRoomId()` (a random token produced outside this model); the
handler stores the fresh room under it unconditionally, with no lookup
of the registry beforehand. -/
def handleCreateRoom (rooms : Rooms) (socketId roomId : String) (now : Int) :
    Rooms × List Emission :=
  (roomsSet rooms roomId (freshRoom socketId now),
   [(Dest.sender, Event.roomCreated roomId "host")])

/-- The `join-room` handler. -/
def handleJoinRoom (rooms : Rooms) (socketId roomId : String) :
    Rooms × List Emission :=
  match roomsGet rooms roomId with
  | none => (rooms, [(Dest.sender, Event.errorMsg "Room does not exist")])
  | some room =>
      if room.hostId = socketId then
        (rooms, [(Dest.sender, Event.errorMsg "Host is already in the room")])
      else
        (roomsSet rooms roomId { room with members := room.members ++ [socketId] },
         [(Dest.sender, Event.roomJoined roomId "viewer" room.videoState),
          (Dest.roomOthers roomId, Event.userJoined socketId)])

/-- The session-tracking block of the `play` handler.  JS subtraction
coerces a null `lastPlayAt` to 0, hence `getD 0` below (the same in the
pause and disconnect trackers). -/
def sessionOnPlay (s : Session) (now : Int) : Session :=
  if s.state = SessionState.IDLE then
    { s with state := SessionState.PLAYING
             startedAt := some now
             lastPlayAt := some now }
  else if s.state = SessionState.PAUSED then
    { s with lastPlayAt := some now, state := SessionState.PLAYING }
  else s

/-- The session-tracking block of the `pause` handler. -/
def sessionOnPause (s : Session) (now : Int) : Session :=
  if s.state = SessionState.PLAYING then
    { s with totalPlayTime := s.totalPlayTime + (now - s.lastPlayAt.getD 0)
             state := SessionState.PAUSED }
  else s

/-- The graceful-session-end block of the `disconnect` handler: add the
final interval when still playing, then mark ENDED. -/
def sessionOnHostDisconnect (s : Session) (now : Int) : Session :=
  let s1 :=
    if s.state = SessionState.PLAYING then
      { s with totalPlayTime := s.totalPlayTime + (now - s.lastPlayAt.getD 0) }
    else s
  { s1 with state := SessionState.ENDED }

/-- The `play` handler. -/
def handlePlay (rooms : Rooms) (socketId roomId : String) (currentTime now : Int) :
    Rooms × List Emission :=
  match roomsGet rooms roomId with
  | none => (rooms, [])
  | some room =>
      if room.hostId = socketId then
        (roomsSet rooms roomId
          { room with
              videoState := { room.videoState with isPlaying := true, currentTime := currentTime }
              session := sessionOnPlay room.session now },
         [(Dest.roomOthers roomId, Event.playEv currentTime)])
      else (rooms, [])

/-- The `pause` handler. -/
def handlePause (rooms : Rooms) (socketId roomId : String) (currentTime now : Int) :
    Rooms × List Emission :=
  match roomsGet rooms roomId with
  | none => (rooms, [])
  | some room =>
      if room.hostId = socketId then
        (roomsSet rooms roomId
          { room with
              videoState := { room.videoState with isPlaying := false, currentTime := currentTime }
              session := sessionOnPause room.session now },
         [(Dest.roomOthers roomId, Event.pauseEv currentTime)])
      else (rooms, [])

/-- The `seek` handler. -/
def handleSeek (rooms : Rooms) (socketId roomId : String) (currentTime : Int) :
    Rooms × List Emission :=
  match roomsGet rooms roomId with
  | none => (rooms, [])
  | some room =>
      if room.hostId = socketId then
        (roomsSet rooms roomId
          { room with videoState := { room.videoState with currentTime := currentTime } },
         [(Dest.roomOthers roomId, Event.seekEv currentTime)])
      else (rooms, [])

/-- The `changeVideo` handler.  Note the fan-out is `socket.to(roomId)`:
every member except the sender. -/
def handleChangeVideo (rooms : Rooms) (socketId roomId url : String) :
    Rooms × List Emission :=
  match roomsGet rooms roomId with
  | none => (rooms, [])
  | some room =>
      if room.hostId = socketId then
        (roomsSet rooms roomId
          { room with
              videoState := { url := some url, currentTime := 0, isPlaying := false } },
         [(Dest.roomOthers roomId, Event.changeVideoEv url)])
      else (rooms, [])

/-- The `chat-message` handler.  `!roomId || !message` drops only the
falsy values (the empty string in this model); there is no registry
lookup at all, and the relayed role is the one the client supplied.
`timeStr` stands for `new Date().toLocaleTimeString()`. -/
def handleChatMessage (rooms : Rooms) (roomId message role timeStr : String) :
    Rooms × List Emission :=
  if roomId = "" ∨ message = "" then (rooms, [])
  else (rooms, [(Dest.roomAll roomId, Event.chatMessageEv message role timeStr)])

/-- The HTTP response of the `/upload` route once multer succeeded. -/
inductive UploadResponse
  | badRequest (error : String)
  | forbidden (error : String)
  | ok (url : String)
deriving Repr, DecidableEq

/-- The room-state part of the `/upload` route: after a successful file
write, look up the room, reject a missing room with 400 and a non-host
sender with 403, else attach the source, remember the movie name, and
fan `changeVideo` out to the whole room (`io.to`, host included). -/
def handleUpload (rooms : Rooms) (roomId socketId filename originalname : String) :
    Rooms × List Emission × UploadResponse :=
  match roomsGet rooms roomId with
  | none => (rooms, [], UploadResponse.badRequest "Invalid room")
  | some room =>
      if room.hostId = socketId then
        let videoUrl := "/uploads/" ++ filename
        (roomsSet rooms roomId
          { room with
              videoState := { url := some videoUrl, currentTime := 0, isPlaying := false }
              movieName := some originalname },
         [(Dest.roomAll roomId, Event.changeVideoEv videoUrl)],
         UploadResponse.ok videoUrl)
      else (rooms, [], UploadResponse.forbidden "Only host can upload video")

/-- Per-room outcome of the `disconnect` loop body. -/
structure DisconnectOutcome where
  keep : Option Room
  finalSession : Session
  emits : List Emission
  history : List HistoryRecord
deriving Repr, DecidableEq

/-- One iteration of the `disconnect` loop over `rooms.entries()`:
filter the leaver out of `members`; if the leaver is the host, run the
graceful session end, insert one history row, delete the room, and
notify the room it closed; else delete the room when empty, else notify
the room the user left.  `nowIso` stands for
`new Date().toISOString()`. -/
def disconnectRoom (socketId roomId : String) (room : Room) (now : Int)
    (nowIso : String) : DisconnectOutcome :=
  let room := { room with members := room.members.filter (fun id => id ≠ socketId) }
  if room.hostId = socketId then
    let sess := sessionOnHostDisconnect room.session now
    let duration := jsRoundDiv1000 sess.totalPlayTime
    { keep := none
      finalSession := sess
      emits := [(Dest.roomAll roomId, Event.roomClosed "Host disconnected")]
      history := [{ roomId := roomId
                    movieName := room.movieName.getD "Unknown"
                    duration := duration
                    genre := "Unknown"
                    watchedAt := nowIso }] }
  else if room.members = [] then
    { keep := none, finalSession := room.session, emits := [], history := [] }
  else
    { keep := some room
      finalSession := room.session
      emits := [(Dest.roomAll roomId, Event.userLeft socketId)]
      history := [] }

/-- The whole `disconnect` handler: fold the loop body over every room
of the registry in insertion order. -/
def handleDisconnect (rooms : Rooms) (socketId : String) (now : Int)
    (nowIso : String) : Rooms × List Emission × List HistoryRecord :=
  match rooms with
  | [] => ([], [], [])
  | (roomId, room) :: rest =>
      let o := disconnectRoom socketId roomId room now nowIso
      let r := handleDisconnect rest socketId now nowIso
      ((match o.keep with
        | some kept => (roomId, kept) :: r.1
        | none => r.1),
       o.emits ++ r.2.1,
       o.history ++ r.2.2)

/-! ### Registry lemmas -/

theorem roomsGet_roomsSet_self (rooms : Rooms) (rid : String) (r : Room) :
    roomsGet (roomsSet rooms rid r) rid = some r := by
  induction rooms with
  | nil => simp [roomsSet, roomsGet]
  | cons hd tl ih =>
      by_cases h : hd.1 = rid
      · simp [roomsSet, roomsGet, h]
      · simp only [roomsSet, roomsGet]
        rw [if_neg h, roomsGet, if_neg h]
        exact ih

theorem roomsGet_roomsSet_ne (rooms : Rooms) (rid rid' : String) (r : Room)
    (h : rid' ≠ rid) :
    roomsGet (roomsSet rooms rid r) rid' = roomsGet rooms rid' := by
  induction rooms with
  | nil => simp [roomsSet, roomsGet, Ne.symm h]
  | cons hd tl ih =>
      by_cases hk : hd.1 = rid
      · subst hk
        simp only [roomsSet, if_pos rfl, roomsGet]
        rw [if_neg (fun e => h e.symm), if_neg (fun e => h e.symm)]
      · simp only [roomsSet, if_neg hk, roomsGet]
        by_cases hk' : hd.1 = rid'
        · rw [if_pos hk', if_pos hk']
        · rw [if_neg hk', if_neg hk']
          exact ih

/-! ### The session machine run and the spec-side interval sum

`runSession` folds the session-tracking blocks of the play and pause
handlers over a command list; a command `(isPlay, currentTime, now)`
carries its wall-clock timestamp explicitly.  `specPlayingIntervals`
is written from the words of the specification: the maximal PLAYING
intervals of a play and pause history, closed at the end timestamp. -/

def runSession (s : Session) : List (Bool × Int × Int) → Session
  | [] => s
  | (true, _, now) :: rest => runSession (sessionOnPlay s now) rest
  | (false, _, now) :: rest => runSession (sessionOnPause s now) rest

/-- Modelled from the spec: the maximal PLAYING intervals of a command
history.  The first component is the timestamp of the pending interval
start, when one is open. -/
def specIntervalsGo : Option Int → List (Bool × Int × Int) → Int → List (Int × Int)
  | none, [], _ => []
  | some r, [], endT => [(r, endT)]
  | none, (true, _, t) :: rest, endT => specIntervalsGo (some t) rest endT
  | none, (false, _, _) :: rest, endT => specIntervalsGo none rest endT
  | some r, (true, _, _) :: rest, endT => specIntervalsGo (some r) rest endT
  | some r, (false, _, t) :: rest, endT => (r, t) :: specIntervalsGo none rest endT

/-- Modelled from the spec: the PLAYING intervals of a full history
starting with no interval open, ended at `endT`. -/
def specPlayingIntervals (cmds : List (Bool × Int × Int)) (endT : Int) :
    List (Int × Int) :=
  specIntervalsGo none cmds endT

/-- The total duration of a list of intervals. -/
def intervalDurationSum (l : List (Int × Int)) : Int :=
  (l.map (fun p => p.2 - p.1)).sum

/-- The coupling between a session and the spec-side pending register:
an open interval start is exactly a PLAYING state with that resume
timestamp; no open interval is an IDLE or PAUSED state. -/
def SessReg (s : Session) (reg : Option Int) : Prop :=
  match reg with
  | some r => s.state = SessionState.PLAYING ∧ s.lastPlayAt = some r
  | none => s.state = SessionState.IDLE ∨ s.state = SessionState.PAUSED

theorem session_run_spec (cmds : List (Bool × Int × Int)) (s : Session)
    (reg : Option Int) (T : Int) (h : SessReg s reg) :
    (sessionOnHostDisconnect (runSession s cmds) T).totalPlayTime
      = s.totalPlayTime + intervalDurationSum (specIntervalsGo reg cmds T) := by
  induction cmds generalizing s reg with
  | nil =>
      cases reg with
      | some r =>
          obtain ⟨hst, hlp⟩ := h
          simp [runSession, sessionOnHostDisconnect, specIntervalsGo,
            intervalDurationSum, hst, hlp]
      | none =>
          rcases h with hst | hst <;>
            simp [runSession, sessionOnHostDisconnect, specIntervalsGo,
              intervalDurationSum, hst]
  | cons c rest ih =>
      obtain ⟨isPlay, ct, t⟩ := c
      cases isPlay with
      | true =>
          cases reg with
          | some r =>
              obtain ⟨hst, hlp⟩ := h
              have hplay : sessionOnPlay s t = s := by
                simp [sessionOnPlay, hst]
              rw [runSession, hplay, specIntervalsGo]
              exact ih s (some r) ⟨hst, hlp⟩
          | none =>
              rcases h with hst | hst
              · have hplay : sessionOnPlay s t =
                    { s with state := SessionState.PLAYING
                             startedAt := some t
                             lastPlayAt := some t } := by
                  simp [sessionOnPlay, hst]
                rw [runSession, hplay, specIntervalsGo]
                have := ih { s with state := SessionState.PLAYING
                                    startedAt := some t
                                    lastPlayAt := some t } (some t) ⟨rfl, rfl⟩
                simpa using this
              · have hplay : sessionOnPlay s t =
                    { s with lastPlayAt := some t, state := SessionState.PLAYING } := by
                  simp [sessionOnPlay, hst]
                rw [runSession, hplay, specIntervalsGo]
                have := ih { s with lastPlayAt := some t,
                                    state := SessionState.PLAYING } (some t) ⟨rfl, rfl⟩
                simpa using this
      | false =>
          cases reg with
          | some r =>
              obtain ⟨hst, hlp⟩ := h
              have hpause : sessionOnPause s t =
                  { s with totalPlayTime := s.totalPlayTime + (t - r)
                           state := SessionState.PAUSED } := by
                simp [sessionOnPause, hst, hlp]
              rw [runSession, hpause, specIntervalsGo]
              have := ih { s with totalPlayTime := s.totalPlayTime + (t - r),
                                  state := SessionState.PAUSED } none (Or.inr rfl)
              simp only [intervalDurationSum, List.map_cons, List.sum_cons] at this ⊢
              rw [this]
              ring
          | none =>
              rcases h with hst | hst
              · have hpause : sessionOnPause s t = s := by
                  simp [sessionOnPause, hst]
                rw [runSession, hpause, specIntervalsGo]
                exact ih s none (Or.inl hst)
              · have hpause : sessionOnPause s t = s := by
                  simp [sessionOnPause, hst]
                rw [runSession, hpause, specIntervalsGo]
                exact ih s none (Or.inr hst)

/-- Run a list of host play and pause commands through the full socket
handlers. -/
def runHostCmds (rooms : Rooms) (socketId roomId : String) :
    List (Bool × Int × Int) → Rooms
  | [] => rooms
  | (true, ct, now) :: rest =>
      runHostCmds (handlePlay rooms socketId roomId ct now).1 socketId roomId rest
  | (false, ct, now) :: rest =>
      runHostCmds (handlePause rooms socketId roomId ct now).1 socketId roomId rest

theorem runHostCmds_lookup (cmds : List (Bool × Int × Int)) (rooms : Rooms)
    (socketId roomId : String) (room : Room)
    (hget : roomsGet rooms roomId = some room) (hhost : room.hostId = socketId) :
    ∃ room', roomsGet (runHostCmds rooms socketId roomId cmds) roomId = some room' ∧
      room'.hostId = room.hostId ∧ room'.members = room.members ∧
      room'.movieName = room.movieName ∧ room'.createdAt = room.createdAt ∧
      room'.session = runSession room.session cmds := by
  induction cmds generalizing rooms room with
  | nil => exact ⟨room, hget, rfl, rfl, rfl, rfl, rfl⟩
  | cons c rest ih =>
      obtain ⟨isPlay, ct, t⟩ := c
      cases isPlay with
      | true =>
          have hstep : (handlePlay rooms socketId roomId ct t).1 =
              roomsSet rooms roomId
                { room with
                    videoState := { room.videoState with isPlaying := true, currentTime := ct }
                    session := sessionOnPlay room.session t } := by
            simp [handlePlay, hget, hhost]
          rw [runHostCmds, hstep]
          obtain ⟨room', hg, h1, h2, h3, h4, h5⟩ :=
            ih (roomsSet rooms roomId
                { room with
                    videoState := { room.videoState with isPlaying := true, currentTime := ct }
                    session := sessionOnPlay room.session t })
              { room with
                  videoState := { room.videoState with isPlaying := true, currentTime := ct }
                  session := sessionOnPlay room.session t }
              (roomsGet_roomsSet_self ..) hhost
          exact ⟨room', hg, h1, h2, h3, h4, by rw [h5, runSession]⟩
      | false =>
          have hstep : (handlePause rooms socketId roomId ct t).1 =
              roomsSet rooms roomId
                { room with
                    videoState := { room.videoState with isPlaying := false, currentTime := ct }
                    session := sessionOnPause room.session t } := by
            simp [handlePause, hget, hhost]
          rw [runHostCmds, hstep]
          obtain ⟨room', hg, h1, h2, h3, h4, h5⟩ :=
            ih (roomsSet rooms roomId
                { room with
                    videoState := { room.videoState with isPlaying := false, currentTime := ct }
                    session := sessionOnPause room.session t })
              { room with
                  videoState := { room.videoState with isPlaying := false, currentTime := ct }
                  session := sessionOnPause room.session t }
              (roomsGet_roomsSet_self ..) hhost
          exact ⟨room', hg, h1, h2, h3, h4, by rw [h5, runSession]⟩

theorem sessionOnHostDisconnect_state (s : Session) (now : Int) :
    (sessionOnHostDisconnect s now).state = SessionState.ENDED := by
  by_cases h : s.state = SessionState.PLAYING <;>
    simp [sessionOnHostDisconnect, h]

/-- C2: for every sequence of host play and pause commands ending in the
host disconnect, the accumulated `totalPlayTime` equals the sum of the
durations of the PLAYING intervals of the history and excludes the
PAUSED intervals; moreover the first play from IDLE sets `startedAt` and
`lastPlayAt` to now, a play never accumulates (so a second play without
an intervening pause does not double-count), and a pause accumulates
exactly when it leaves PLAYING. -/
theorem c2_watch_time_accounting (hostId roomId : String) (t0 T : Int)
    (nowIso : String) (cmds : List (Bool × Int × Int)) :
    (∃ room',
       roomsGet (runHostCmds (handleCreateRoom [] hostId roomId t0).1
           hostId roomId cmds) roomId = some room' ∧
       (disconnectRoom hostId roomId room' T nowIso).finalSession.totalPlayTime
          = intervalDurationSum (specPlayingIntervals cmds T) ∧
       (disconnectRoom hostId roomId room' T nowIso).finalSession.state
          = SessionState.ENDED) ∧
    (∀ s now, (sessionOnPlay s now).totalPlayTime = s.totalPlayTime) ∧
    (∀ now, sessionOnPlay (freshRoom hostId t0).session now
        = { state := SessionState.PLAYING, startedAt := some now,
            lastPlayAt := some now, totalPlayTime := 0 }) ∧
    (∀ s now, (sessionOnPause s now).totalPlayTime
        = s.totalPlayTime +
            (if s.state = SessionState.PLAYING then now - s.lastPlayAt.getD 0
             else 0)) := by
  have hfresh : roomsGet (handleCreateRoom [] hostId roomId t0).1 roomId
      = some (freshRoom hostId t0) := by
    simp [handleCreateRoom, roomsSet, roomsGet]
  obtain ⟨room', hg, h1, _, _, _, h5⟩ :=
    runHostCmds_lookup cmds _ hostId roomId (freshRoom hostId t0) hfresh rfl
  have hsess : (disconnectRoom hostId roomId room' T nowIso).finalSession
      = sessionOnHostDisconnect room'.session T := by
    simp [disconnectRoom, h1, freshRoom]
  refine ⟨⟨room', hg, ?_, ?_⟩, ?_, ?_, ?_⟩
  · rw [hsess, h5]
    have := session_run_spec cmds (freshRoom hostId t0).session none T (Or.inl rfl)
    simpa [freshRoom, specPlayingIntervals] using this
  · rw [hsess]
    exact sessionOnHostDisconnect_state room'.session T
  · intro s now
    unfold sessionOnPlay
    split
    · rfl
    · split <;> rfl
  · intro now
    rfl
  · intro s now
    by_cases h : s.state = SessionState.PLAYING <;> simp [sessionOnPause, h]

theorem handleJoinRoom_success (rooms : Rooms) (socketId roomId : String)
    (room : Room) (hget : roomsGet rooms roomId = some room)
    (hhost : room.hostId ≠ socketId) :
    handleJoinRoom rooms socketId roomId
      = (roomsSet rooms roomId { room with members := room.members ++ [socketId] },
         [(Dest.sender, Event.roomJoined roomId "viewer" room.videoState),
          (Dest.roomOthers roomId, Event.userJoined socketId)]) := by
  simp [handleJoinRoom, hget, hhost]

/-- C1 (counterexample): the claim covers the attach-source path of the
upload route, yet a non-host upload to an existing room is answered with
an explicit 403 error, not a silent no-op. -/
theorem c1_nonhost_attach_gets_error :
    (handleUpload [("r1", freshRoom "h" 0)] "r1" "v" "f.mp4" "Movie.mp4").2.2
      = UploadResponse.forbidden "Only host can upload video" := by
  simp [handleUpload, roomsGet, freshRoom]

/-- C1 (amended): a non-host play, pause, seek, or socket changeVideo
command is a silent no-op — no emission at all and the registry is left
unchanged; a non-host upload also leaves the registry unchanged and
emits nothing to the room, but its HTTP response is an explicit 403
error. -/
theorem c1_nonhost_commands_no_op (rooms : Rooms) (socketId roomId : String)
    (room : Room) (currentTime now : Int) (url filename originalname : String)
    (hget : roomsGet rooms roomId = some room)
    (hhost : room.hostId ≠ socketId) :
    handlePlay rooms socketId roomId currentTime now = (rooms, []) ∧
    handlePause rooms socketId roomId currentTime now = (rooms, []) ∧
    handleSeek rooms socketId roomId currentTime = (rooms, []) ∧
    handleChangeVideo rooms socketId roomId url = (rooms, []) ∧
    handleUpload rooms roomId socketId filename originalname
      = (rooms, [], UploadResponse.forbidden "Only host can upload video") := by
  refine ⟨?_, ?_, ?_, ?_, ?_⟩ <;>
    simp [handlePlay, handlePause, handleSeek, handleChangeVideo, handleUpload,
      hget, hhost]

/-- C1 witness: a viewer sending play into a room hosted by another
connection changes nothing and triggers no emission. -/
theorem c1_nonhost_commands_no_op_witness :
    handlePlay [("r1", freshRoom "h" 0)] "v" "r1" 7 100
      = ([("r1", freshRoom "h" 0)], []) :=
  (c1_nonhost_commands_no_op [("r1", freshRoom "h" 0)] "v" "r1"
    (freshRoom "h" 0) 7 100 "u" "f" "o"
    (by simp [roomsGet]) (by simp [freshRoom])).1

/-- C4: join-room surfaces a room-not-found error when the room id is
absent, surfaces an already-host error when the requester is the host,
and otherwise appends the requester to the members, answers with a
snapshot carrying the full video state (url, currentTime, isPlaying)
and notifies the other members of the arrival. -/
theorem c4_join_room (rooms : Rooms) (socketId roomId : String) :
    (roomsGet rooms roomId = none →
      handleJoinRoom rooms socketId roomId
        = (rooms, [(Dest.sender, Event.errorMsg "Room does not exist")])) ∧
    (∀ room, roomsGet rooms roomId = some room → room.hostId = socketId →
      handleJoinRoom rooms socketId roomId
        = (rooms, [(Dest.sender, Event.errorMsg "Host is already in the room")])) ∧
    (∀ room, roomsGet rooms roomId = some room → room.hostId ≠ socketId →
      handleJoinRoom rooms socketId roomId
        = (roomsSet rooms roomId { room with members := room.members ++ [socketId] },
           [(Dest.sender, Event.roomJoined roomId "viewer" room.videoState),
            (Dest.roomOthers roomId, Event.userJoined socketId)])) := by
  refine ⟨?_, ?_, ?_⟩ <;> intros <;> simp_all [handleJoinRoom]

/-- C4 witness: a fresh viewer joining an existing room is admitted and
receives the snapshot. -/
theorem c4_join_room_witness :
    handleJoinRoom [("r1", freshRoom "h" 0)] "v" "r1"
      = (roomsSet [("r1", freshRoom "h" 0)] "r1"
           { freshRoom "h" 0 with members := (freshRoom "h" 0).members ++ ["v"] },
         [(Dest.sender, Event.roomJoined "r1" "viewer" (freshRoom "h" 0).videoState),
          (Dest.roomOthers "r1", Event.userJoined "v")]) :=
  (c4_join_room [("r1", freshRoom "h" 0)] "v" "r1").2.2 (freshRoom "h" 0)
    (by simp [roomsGet]) (by simp [freshRoom])

/-- C5 (counterexample): the socket changeVideo command from the host is
fanned out with `socket.to`, i.e. to every member except the sender —
not to all members including the host as the claim states. -/
theorem c5_changeVideo_excludes_sender :
    (handleChangeVideo [("r1", freshRoom "h" 0)] "h" "r1" "/uploads/a.mp4").2
      = [(Dest.roomOthers "r1", Event.changeVideoEv "/uploads/a.mp4")] := by
  simp [handleChangeVideo, roomsGet, freshRoom]

/-- C5 (amended): authorized play, pause, seek and the socket
changeVideo command are all delivered to every member except the
sender; only the upload-driven changeVideo is delivered to the whole
room, host included. -/
theorem c5_fanout_targets (rooms : Rooms) (socketId roomId : String)
    (room : Room) (currentTime now : Int) (url filename originalname : String)
    (hget : roomsGet rooms roomId = some room)
    (hhost : room.hostId = socketId) :
    (handlePlay rooms socketId roomId currentTime now).2
      = [(Dest.roomOthers roomId, Event.playEv currentTime)] ∧
    (handlePause rooms socketId roomId currentTime now).2
      = [(Dest.roomOthers roomId, Event.pauseEv currentTime)] ∧
    (handleSeek rooms socketId roomId currentTime).2
      = [(Dest.roomOthers roomId, Event.seekEv currentTime)] ∧
    (handleChangeVideo rooms socketId roomId url).2
      = [(Dest.roomOthers roomId, Event.changeVideoEv url)] ∧
    (handleUpload rooms roomId socketId filename originalname).2.1
      = [(Dest.roomAll roomId, Event.changeVideoEv ("/uploads/" ++ filename))] := by
  refine ⟨?_, ?_, ?_, ?_, ?_⟩ <;>
    simp [handlePlay, handlePause, handleSeek, handleChangeVideo, handleUpload,
      hget, hhost]

/-- C5 witness: host-issued commands in a concrete room. -/
theorem c5_fanout_targets_witness :
    (handlePlay [("r1", freshRoom "h" 0)] "h" "r1" 3 50).2
      = [(Dest.roomOthers "r1", Event.playEv 3)] :=
  (c5_fanout_targets [("r1", freshRoom "h" 0)] "h" "r1" (freshRoom "h" 0)
    3 50 "u" "f" "o" (by simp [roomsGet]) (by simp [freshRoom])).1

/-- C8 (counterexample): a play command addressed to a room id absent
from the registry is a silent no-op: no RoomNotFound error is emitted
to the caller. -/
theorem c8_play_unknown_room_silent :
    handlePlay [] "h" "nope" 3 100 = ([], []) := by
  simp [handlePlay, roomsGet]

/-- C8 (amended): only join-room (and the HTTP upload route, with a 400
response) surfaces a room-not-found error; play, pause, seek and the
socket changeVideo on an unknown room id are silent no-ops. -/
theorem c8_unknown_room (rooms : Rooms) (socketId roomId : String)
    (currentTime now : Int) (url filename originalname : String)
    (habs : roomsGet rooms roomId = none) :
    handlePlay rooms socketId roomId currentTime now = (rooms, []) ∧
    handlePause rooms socketId roomId currentTime now = (rooms, []) ∧
    handleSeek rooms socketId roomId currentTime = (rooms, []) ∧
    handleChangeVideo rooms socketId roomId url = (rooms, []) ∧
    handleJoinRoom rooms socketId roomId
      = (rooms, [(Dest.sender, Event.errorMsg "Room does not exist")]) ∧
    handleUpload rooms roomId socketId filename originalname
      = (rooms, [], UploadResponse.badRequest "Invalid room") := by
  refine ⟨?_, ?_, ?_, ?_, ?_, ?_⟩ <;>
    simp [handlePlay, handlePause, handleSeek, handleChangeVideo,
      handleJoinRoom, handleUpload, habs]

/-- C8 witness: commands to an empty registry. -/
theorem c8_unknown_room_witness :
    handleSeek [] "h" "zz" 9 = ([], []) :=
  (c8_unknown_room [] "h" "zz" 9 0 "u" "f" "o" rfl).2.2.1

/-- C9: a host-authorized seek updates only the position; the playing
flag, the source url, the whole session and the membership are
untouched. -/
theorem c9_seek_frame (rooms : Rooms) (socketId roomId : String) (room : Room)
    (currentTime : Int) (hget : roomsGet rooms roomId = some room)
    (hhost : room.hostId = socketId) :
    ∃ room',
      roomsGet (handleSeek rooms socketId roomId currentTime).1 roomId = some room' ∧
      room'.videoState.currentTime = currentTime ∧
      room'.videoState.isPlaying = room.videoState.isPlaying ∧
      room'.videoState.url = room.videoState.url ∧
      room'.session = room.session ∧
      room'.members = room.members := by
  refine ⟨{ room with videoState := { room.videoState with currentTime := currentTime } },
    ?_, rfl, rfl, rfl, rfl, rfl⟩
  simp [handleSeek, hget, hhost, roomsGet_roomsSet_self]

/-- C9 witness: a concrete seek in a fresh room. -/
theorem c9_seek_frame_witness :
    ∃ room',
      roomsGet (handleSeek [("r1", freshRoom "h" 0)] "h" "r1" 42).1 "r1" = some room' ∧
      room'.videoState.currentTime = 42 ∧
      room'.videoState.isPlaying = (freshRoom "h" 0).videoState.isPlaying ∧
      room'.videoState.url = (freshRoom "h" 0).videoState.url ∧
      room'.session = (freshRoom "h" 0).session ∧
      room'.members = (freshRoom "h" 0).members :=
  c9_seek_frame [("r1", freshRoom "h" 0)] "h" "r1" (freshRoom "h" 0) 42
    (by simp [roomsGet]) (by simp [freshRoom])

theorem roomsGet_eq_none_of_not_mem_keys (rooms : Rooms) (rid : String)
    (h : rid ∉ rooms.map Prod.fst) : roomsGet rooms rid = none := by
  induction rooms with
  | nil => rfl
  | cons hd tl ih =>
      obtain ⟨k, v⟩ := hd
      simp only [List.map_cons, List.mem_cons] at h
      push_neg at h
      simp only [roomsGet]
      rw [if_neg (Ne.symm h.1)]
      exact ih h.2

theorem handleDisconnect_preserves_none (rooms : Rooms) (socketId : String)
    (now : Int) (nowIso : String) (rid : String)
    (h : roomsGet rooms rid = none) :
    roomsGet (handleDisconnect rooms socketId now nowIso).1 rid = none := by
  induction rooms with
  | nil => rfl
  | cons hd tl ih =>
      obtain ⟨k, v⟩ := hd
      simp only [roomsGet] at h
      by_cases hk : k = rid
      · simp [hk] at h
      · rw [if_neg hk] at h
        simp only [handleDisconnect]
        cases hkeep : (disconnectRoom socketId k v now nowIso).keep with
        | none => simpa [hkeep] using ih h
        | some kept =>
            simp only [hkeep, roomsGet, if_neg hk]
            exact ih h

theorem handleDisconnect_removes_host_room (rooms : Rooms)
    (socketId : String) (now : Int) (nowIso : String) (rid : String) (room : Room)
    (hnodup : (rooms.map Prod.fst).Nodup)
    (hget : roomsGet rooms rid = some room) (hhost : room.hostId = socketId) :
    roomsGet (handleDisconnect rooms socketId now nowIso).1 rid = none := by
  induction rooms with
  | nil => simp [roomsGet] at hget
  | cons hd tl ih =>
      obtain ⟨k, v⟩ := hd
      simp only [List.map_cons, List.nodup_cons] at hnodup
      by_cases hk : k = rid
      · subst hk
        simp [roomsGet] at hget
        have hkeep : (disconnectRoom socketId k v now nowIso).keep = none := by
          simp [disconnectRoom, hget ▸ hhost]
        simp only [handleDisconnect, hkeep]
        exact handleDisconnect_preserves_none tl socketId now nowIso k
          (roomsGet_eq_none_of_not_mem_keys tl k hnodup.1)
      · simp only [roomsGet, if_neg hk] at hget
        simp only [handleDisconnect]
        cases hkeep : (disconnectRoom socketId k v now nowIso).keep with
        | none => simpa [hkeep] using ih hnodup.2 hget
        | some kept =>
            simp only [hkeep, roomsGet, if_neg hk]
            exact ih hnodup.2 hget

/-- C3: when the host disconnects, the room reconciler always marks the
session ENDED (accumulating the final interval exactly when it was
PLAYING), emits one room-closed notice to the room, writes exactly one
history record with the movie label (defaulted to Unknown), the rounded
duration and the end timestamp, and the room is removed from the
registry — whatever the session state was, IDLE included. -/
theorem c3_host_disconnect (rooms : Rooms) (socketId roomId : String)
    (room : Room) (now : Int) (nowIso : String)
    (hnodup : (rooms.map Prod.fst).Nodup)
    (hget : roomsGet rooms roomId = some room)
    (hhost : room.hostId = socketId) :
    (disconnectRoom socketId roomId room now nowIso).keep = none ∧
    (disconnectRoom socketId roomId room now nowIso).finalSession.state
      = SessionState.ENDED ∧
    (disconnectRoom socketId roomId room now nowIso).finalSession.totalPlayTime
      = room.session.totalPlayTime +
          (if room.session.state = SessionState.PLAYING
           then now - room.session.lastPlayAt.getD 0 else 0) ∧
    (disconnectRoom socketId roomId room now nowIso).emits
      = [(Dest.roomAll roomId, Event.roomClosed "Host disconnected")] ∧
    (disconnectRoom socketId roomId room now nowIso).history
      = [{ roomId := roomId
           movieName := room.movieName.getD "Unknown"
           duration := jsRoundDiv1000
             (disconnectRoom socketId roomId room now nowIso).finalSession.totalPlayTime
           genre := "Unknown"
           watchedAt := nowIso }] ∧
    roomsGet (handleDisconnect rooms socketId now nowIso).1 roomId = none := by
  refine ⟨?_, ?_, ?_, ?_, ?_, ?_⟩
  · simp [disconnectRoom, hhost]
  · simp [disconnectRoom, hhost, sessionOnHostDisconnect_state]
  · by_cases hst : room.session.state = SessionState.PLAYING <;>
      simp [disconnectRoom, hhost, sessionOnHostDisconnect, hst]
  · simp [disconnectRoom, hhost]
  · simp [disconnectRoom, hhost]
  · exact handleDisconnect_removes_host_room rooms socketId now nowIso roomId
      room hnodup hget hhost

/-- C3 witness: the host of a still-IDLE room disconnects; the session
ends with zero accumulated time, one record is written and the room is
gone. -/
theorem c3_host_disconnect_witness :
    (disconnectRoom "h" "r1" (freshRoom "h" 5) 100 "2026-01-01").keep = none ∧
    (disconnectRoom "h" "r1" (freshRoom "h" 5) 100 "2026-01-01").finalSession.state
      = SessionState.ENDED ∧
    (disconnectRoom "h" "r1" (freshRoom "h" 5) 100 "2026-01-01").finalSession.totalPlayTime
      = (freshRoom "h" 5).session.totalPlayTime +
          (if (freshRoom "h" 5).session.state = SessionState.PLAYING
           then 100 - (freshRoom "h" 5).session.lastPlayAt.getD 0 else 0) ∧
    (disconnectRoom "h" "r1" (freshRoom "h" 5) 100 "2026-01-01").emits
      = [(Dest.roomAll "r1", Event.roomClosed "Host disconnected")] ∧
    (disconnectRoom "h" "r1" (freshRoom "h" 5) 100 "2026-01-01").history
      = [{ roomId := "r1"
           movieName := (freshRoom "h" 5).movieName.getD "Unknown"
           duration := jsRoundDiv1000
             (disconnectRoom "h" "r1" (freshRoom "h" 5) 100 "2026-01-01").finalSession.totalPlayTime
           genre := "Unknown"
           watchedAt := "2026-01-01" }] ∧
    roomsGet (handleDisconnect [("r1", freshRoom "h" 5)] "h" 100 "2026-01-01").1 "r1"
      = none :=
  c3_host_disconnect [("r1", freshRoom "h" 5)] "h" "r1" (freshRoom "h" 5)
    100 "2026-01-01" (by simp) (by simp [roomsGet]) (by simp [freshRoom])

/-- C6 (failing input): the create-room handler never consults the
registry before storing: when the id generator repeats a token, the
second create-room overwrites the first room in place, so the original
host loses the room and no retry happens. -/
theorem c6_collision_overwrites :
    roomsGet (handleCreateRoom (handleCreateRoom [] "hostA" "abc123" 10).1
        "hostB" "abc123" 20).1 "abc123"
      = some (freshRoom "hostB" 20) ∧
    freshRoom "hostB" 20 ≠ freshRoom "hostA" 10 := by
  constructor
  · simp [handleCreateRoom, roomsSet, roomsGet]
  · simp [freshRoom]

/-- C7 (counterexample): a whitespace-only chat message in an existing
room is relayed verbatim, not rejected as empty. -/
theorem c7_whitespace_message_relayed :
    handleChatMessage [("r1", freshRoom "h" 0)] "r1" " " "viewer" "10:00:00"
      = ([("r1", freshRoom "h" 0)],
         [(Dest.roomAll "r1", Event.chatMessageEv " " "viewer" "10:00:00")]) := by
  simp [handleChatMessage]

/-- C7 (amended): the chat relay never consults or mutates the
registry — so no room-not-found error can ever be surfaced and a
message to an absent room id is still fanned out to the (empty)
connection group; any nonempty room id and nonempty text (whitespace
included) is relayed to the whole room, sender included, with the
client-supplied role and the server-side time string; an empty id or
empty text is dropped silently with no emission. -/
theorem c7_chat_relay (rooms : Rooms) (roomId message role timeStr : String) :
    (handleChatMessage rooms roomId message role timeStr).1 = rooms ∧
    (roomId ≠ "" → message ≠ "" →
      (handleChatMessage rooms roomId message role timeStr).2
        = [(Dest.roomAll roomId, Event.chatMessageEv message role timeStr)]) ∧
    (message = "" → (handleChatMessage rooms roomId message role timeStr).2 = []) := by
  refine ⟨?_, ?_, ?_⟩
  · by_cases h : roomId = "" ∨ message = "" <;> simp [handleChatMessage, h]
  · intro h1 h2
    simp [handleChatMessage, h1, h2]
  · intro h
    simp [handleChatMessage, h]

/-- C7 witness: a message into a room id absent from an empty registry
is still relayed with no error. -/
theorem c7_chat_relay_witness :
    (handleChatMessage [] "zz" "hello" "viewer" "10:00:00").1 = [] ∧
    (handleChatMessage [] "zz" "hello" "viewer" "10:00:00").2
      = [(Dest.roomAll "zz", Event.chatMessageEv "hello" "viewer" "10:00:00")] :=
  ⟨(c7_chat_relay [] "zz" "hello" "viewer" "10:00:00").1,
   (c7_chat_relay [] "zz" "hello" "viewer" "10:00:00").2.1
     (by simp) (by simp)⟩

/-- C10: join-room never checks for an existing membership, so joining
twice appends the connection twice; the disconnect reconciler filters
every occurrence out in one pass. -/
theorem c10_duplicate_membership (rooms : Rooms) (socketId roomId : String)
    (room : Room) (now : Int) (nowIso : String)
    (hget : roomsGet rooms roomId = some room)
    (hhost : room.hostId ≠ socketId)
    (hmem : room.hostId ∈ room.members) :
    ∃ room2,
      roomsGet (handleJoinRoom (handleJoinRoom rooms socketId roomId).1
          socketId roomId).1 roomId = some room2 ∧
      room2.members = room.members ++ [socketId, socketId] ∧
      ∃ kept,
        (disconnectRoom socketId roomId room2 now nowIso).keep = some kept ∧
        kept.members = room.members.filter (fun id => id ≠ socketId) ∧
        socketId ∉ kept.members := by
  have h1 : (handleJoinRoom rooms socketId roomId).1
      = roomsSet rooms roomId { room with members := room.members ++ [socketId] } :=
    congrArg Prod.fst (handleJoinRoom_success rooms socketId roomId room hget hhost)
  have hg1 : roomsGet (handleJoinRoom rooms socketId roomId).1 roomId
      = some { room with members := room.members ++ [socketId] } := by
    rw [h1]; exact roomsGet_roomsSet_self ..
  have h2 : (handleJoinRoom (handleJoinRoom rooms socketId roomId).1 socketId roomId).1
      = roomsSet (handleJoinRoom rooms socketId roomId).1 roomId
          { room with members := (room.members ++ [socketId]) ++ [socketId] } :=
    congrArg Prod.fst (handleJoinRoom_success _ socketId roomId
      { room with members := room.members ++ [socketId] } hg1 hhost)
  refine ⟨{ room with members := (room.members ++ [socketId]) ++ [socketId] },
    by rw [h2]; exact roomsGet_roomsSet_self .., by simp, ?_⟩
  have hfilter : ((room.members ++ [socketId]) ++ [socketId]).filter
      (fun id => id ≠ socketId) = room.members.filter (fun id => id ≠ socketId) := by
    simp [List.filter_append]
  have hne : room.members.filter (fun id => id ≠ socketId) ≠ [] := by
    intro hempty
    have : room.hostId ∈ room.members.filter (fun id => id ≠ socketId) := by
      rw [List.mem_filter]
      exact ⟨hmem, by simpa using hhost⟩
    rw [hempty] at this
    simp at this
  refine ⟨{ room with members := room.members.filter (fun id => id ≠ socketId) },
    ?_, rfl, ?_⟩
  · simp only [disconnectRoom, hfilter]
    rw [if_neg (by simpa using hhost), if_neg hne]
  · simp [List.mem_filter]

/-- C10 witness: a viewer joining a concrete room twice appears twice;
its later disconnect leaves a member list with no occurrence of it. -/
theorem c10_duplicate_membership_witness :
    ∃ room2,
      roomsGet (handleJoinRoom (handleJoinRoom [("r1", freshRoom "h" 0)] "v" "r1").1
          "v" "r1").1 "r1" = some room2 ∧
      room2.members = (freshRoom "h" 0).members ++ ["v", "v"] ∧
      ∃ kept,
        (disconnectRoom "v" "r1" room2 100 "2026-01-01").keep = some kept ∧
        kept.members = (freshRoom "h" 0).members.filter (fun id => id ≠ "v") ∧
        "v" ∉ kept.members :=
  c10_duplicate_membership [("r1", freshRoom "h" 0)] "v" "r1" (freshRoom "h" 0)
    100 "2026-01-01" (by simp [roomsGet]) (by simp [freshRoom])
    (by simp [freshRoom])

end SyncWatch
